import Mathlib

set_option synthInstance.maxSize 512

/-!
Verification development for the `simplecloud` salt module
(`_modules/simplecloud.py`): a shallow embedding of `consume_map` and its
helpers, followed by theorems about the embedded definitions.

Modelling conventions:
* Python dicts are modelled as insertion-ordered association lists
  (`List (κ × α)`) with `dlookup` (first match) and `dinsert`
  (replace-in-place or append), matching deterministic dict semantics.
* `copy.copy`/`copy.deepcopy` are the identity on pure values; the one
  observable in-place mutation of a caller-owned structure (the `del`
  statements on each provider's dict inside `consume_map`) is modelled by
  explicit state passing: `consumeMap` additionally returns the post-call
  state of the `in_providers` tree in the `inProvidersAfter` field.
* Fallible operations (`KeyError`, `NameError`/`UnboundLocalError`,
  `TypeError`, `IndexError`) are modelled with `Except PyErr`.
* The seeded Mersenne-Twister draw `random.seed(fqdn); random.choice(l)`
  is modelled by `seededChoiceIdx`, a concrete pure function of the seed
  and the list length; the code only relies on the draw being a
  deterministic in-range function of exactly those two arguments
  (py2 `random.choice` picks `int(random() * len(seq))`).
* The hostname `fqdn % i` (the template with the two-digit ordinal
  substituted) is modelled as the pair `Hostname = (template, ordinal)`;
  the rendering is injective in the ordinal for a fixed template, so the
  pair carries exactly the identity of the rendered string.
-/

/-- Python exception classes that the embedded code can raise. -/
inductive PyErr where
  | keyError : String → PyErr
  | nameError : String → PyErr
  | typeError : String → PyErr
  | indexError : String → PyErr
deriving DecidableEq

/-- Dict lookup: value of the first (unique, for dict-shaped lists) binding. -/
def dlookup {κ α : Type} [DecidableEq κ] : List (κ × α) → κ → Option α
  | [], _ => none
  | (k', v) :: rest, k => if k' = k then some v else dlookup rest k

/-- Dict assignment `d[k] = v`: replace in place if the key is bound,
append otherwise (insertion-ordered dict semantics). -/
def dinsert {κ α : Type} [DecidableEq κ] : List (κ × α) → κ → α → List (κ × α)
  | [], k, v => [(k, v)]
  | (k', v') :: rest, k, v =>
    if k' = k then (k, v) :: rest else (k', v') :: dinsert rest k v

/-- Python `a.update(b)`: every binding of `b` written into `a` in order. -/
def dictUpdateAll {κ α : Type} [DecidableEq κ]
    (a b : List (κ × α)) : List (κ × α) :=
  b.foldl (fun m p => dinsert m p.1 p.2) a

/-- `b` if present, else `a`: one field of a Python `dict.update`. -/
def pyOr {α : Type} : Option α → Option α → Option α
  | some v, _ => some v
  | none, a => a

/-- Unwrap an optional value, raising the given exception when absent
(models `d[k]` on a dict / an unbound local). -/
def ofOption {α : Type} : Option α → PyErr → Except PyErr α
  | some v, _ => .ok v
  | none, e => .error e

/-- A per-role security-group declaration: a bare group id or a list of ids. -/
inductive SGVal where
  | one : String → SGVal
  | many : List String → SGVal
deriving DecidableEq

/-- An element of a resolved `security_groups` list.  Normalisation wraps a
bare id in a list of ids; appending a `many`-valued common group nests a
whole list as one element, exactly as `list.append` does in the source. -/
inductive SGElem where
  | id : String → SGElem
  | ids : List String → SGElem
deriving DecidableEq

/-- `profile['security_groups'] = [x]` wrapping / passthrough of lines
305-308: absent becomes `[]`, a bare id is wrapped, a list stays. -/
def normalizeSG : Option SGVal → List SGElem
  | none => []
  | some (.one s) => [.id s]
  | some (.many l) => l.map .id

/-- The raw value appended by `profile['security_groups'].append(common_sec)`. -/
def sgValToElem : SGVal → SGElem
  | .one s => .id s
  | .many l => .ids l

/-- A volume spec `{size, device, type, tags}`; `tags = none` models the
key being absent before line 299 initialises it. -/
structure Volume where
  vsize : Option Nat := none
  device : Option String := none
  vtype : Option String := none
  tags : Option (List (String × String)) := none
deriving DecidableEq

/-- An entry of a role's `interfaces` list: a bare environment name or a
single-key mapping `{environment: {AZ label → address-or-id}}`. -/
inductive IfaceSpec where
  | bare : String → IfaceSpec
  | withOverride : String → List (String × String) → IfaceSpec
deriving DecidableEq

/-- A role-attribute dict (entries of `server_roles`, per-entry overrides
and the working profile before resolution).  Fields model key presence
with `Option`; unknown passthrough keys (`iam_profile`, the profile
defaults flags, ...) live in `extra`. -/
structure RoleDict where
  size : Option String := none
  image : Option String := none
  volumes : Option (List Volume) := none
  security_groups : Option SGVal := none
  servers : Option Nat := none
  interfaces : Option (List IfaceSpec) := none
  extra : List (String × String) := []
deriving DecidableEq

def RoleDict.empty : RoleDict := {}

/-- Python `a.update(b)` on two role dicts: keys present in `b` win. -/
def RoleDict.update (a b : RoleDict) : RoleDict where
  size := pyOr b.size a.size
  image := pyOr b.image a.image
  volumes := pyOr b.volumes a.volumes
  security_groups := pyOr b.security_groups a.security_groups
  servers := pyOr b.servers a.servers
  interfaces := pyOr b.interfaces a.interfaces
  extra := dictUpdateAll a.extra b.extra

/-- A `{AZ label: subnet id}` declaration.  The source assumes a
single-key dict and extracts it with `keys().pop()` / `values().pop()`
(py2 `list.pop` takes the last element). -/
abbrev SubnetDecl := List (String × String)

/-- A provider's input dict.  The five dict-valued keys consumed by
`consume_map` are `Option`s so that the `del` statements (modelled as
setting the field to `none`) and a missing key (`KeyError`) are both
representable.  Opaque passthrough keys (`id`, `key`, `location`, ...)
live in `extra`. -/
structure ProviderIn where
  subnets : Option (List (String × List SubnetDecl)) := none
  sizes : Option (List (String × String)) := none
  images : Option (List (String × String)) := none
  volumes : Option (List (String × List Volume)) := none
  security_groups : Option (List (String × SGVal)) := none
  default_servers : Option Nat := none
  extra : List (String × String) := []
deriving DecidableEq

/-- A provider's output entry: the defaults-merged dict from which
`default_servers` is read (and deleted) during the servers pass. -/
structure ProviderOut where
  default_servers : Option Nat := none
  extra : List (String × String) := []
deriving DecidableEq

/-- `defaults: providers:` subtree. -/
structure ProviderDefaults where
  default_servers : Option Nat := none
  extra : List (String × String) := []
deriving DecidableEq

/-- Per-host defaults (`defaults: mappings:`), copied verbatim into every
map entry. -/
abbrev MapDefaults := List (String × List (String × String))

/-- The `cloud_defaults` tree; each subtree is optional because the source
guards `profiles`/`providers` with `in` but indexes `mappings` directly. -/
structure CloudDefaults where
  providers : Option ProviderDefaults := none
  profiles : Option RoleDict := none
  mappings : Option MapDefaults := none
deriving DecidableEq

/-- A derived environment: ordered AZ labels plus the AZ → subnet map. -/
structure EnvData where
  availability_zones : List String := []
  subnets : List (String × String) := []
deriving DecidableEq

/-- `d.keys().pop()` of a (single-key) dict: the last key; `IndexError`
on an empty dict. -/
def keysPop (d : List (String × String)) : Except PyErr String :=
  ofOption (d.map Prod.fst).getLast? (.indexError "pop from empty list")

/-- `d.values().pop()` of a (single-key) dict: the last value. -/
def valuesPop (d : List (String × String)) : Except PyErr String :=
  ofOption (d.map Prod.snd).getLast? (.indexError "pop from empty list")

/-- Lines 108-111: derive one environment from a provider's subnet list:
the AZ-label list comprehension and the AZ → subnet dict comprehension. -/
def envOfSubnetList (sl : List SubnetDecl) : Except PyErr EnvData := do
  let azs ← sl.mapM keysPop
  let subs ← sl.foldlM (fun acc s => do
      let k ← keysPop s
      let v ← valuesPop s
      pure (dinsert acc k v)) ([] : List (String × String))
  pure ⟨azs, subs⟩

/-- `update_server` (lines 225-228). -/
def update_server (server_roles : List (String × RoleDict))
    (server_role : String) (values : RoleDict) : List (String × RoleDict) :=
  dinsert server_roles server_role
    (((dlookup server_roles server_role).getD RoleDict.empty).update values)

/-- `_get_tags` (lines 231-235). -/
def getTags (environment role : String) : List (String × String) :=
  [("Environment", environment), ("Role", role)]

/-- A server-list entry: a bare role name or a single-key
`{role name: override dict}` mapping (lines 279-281). -/
inductive ServerEntry where
  | bare : String → ServerEntry
  | withOverrides : String → RoleDict → ServerEntry
deriving DecidableEq

/-- Extract `(stname, overrides)` from a server-list entry. -/
def extractEntry : ServerEntry → String × RoleDict
  | .bare s => (s, RoleDict.empty)
  | .withOverrides s o => (s, o)

/-- The hostname template `'%(role)s%%02d.%(env)s.%(location)s.example.com'`
built at lines 187-191 (`location` is the provider name). -/
structure HostTemplate where
  role : String
  env : String
  location : String
deriving DecidableEq

/-- A rendered hostname `fqdn % i`: the template with the two-digit
ordinal substituted.  Rendering is injective in the ordinal for a fixed
template, so the pair is the identity of the rendered string. -/
structure Hostname where
  template : HostTemplate
  ordinal : Nat
deriving DecidableEq

/-- Model of `random.seed(seed); random.choice(range-of-n)`: py2 draws
index `int(random() * n)`, a deterministic pure function of the seed
string and `n`.  The Mersenne Twister itself is not modelled; any
concrete deterministic hash has the two properties the code relies on
(determinism and range). -/
def seededChoiceIdx (seed : HostTemplate) (n : Nat) : Nat :=
  let h := fun (s : String) (a : Nat) => s.foldl (fun a c => a * 131 + c.toNat) a
  h seed.location (h seed.env (h seed.role 7)) % n

/-- `_get_cycle_list` (lines 203-208): seeded draw of one element, which
is rotated to the front (`remove` + `insert 0`).  `random.choice` on an
empty sequence raises `IndexError`. -/
def getCycleList (seed : HostTemplate) (in_list : List String) :
    Except PyErr (List String) :=
  match in_list with
  | [] => .error (.indexError "cannot choose from an empty sequence")
  | x :: xs =>
    let l := x :: xs
    let first := l.get ⟨seededChoiceIdx seed l.length % l.length,
      Nat.mod_lt _ (Nat.succ_pos xs.length)⟩
    .ok (first :: l.erase first)

/-- The profile name looked up for loop step `j` of `_get_map_data`:
`profiles[az]` where `az` is the cycle element `(i-1) mod k`. -/
def pnameOf (profiles : List (String × String)) (cycle_list : List String)
    (j : Nat) : String :=
  (dlookup profiles (cycle_list.getD (j % cycle_list.length) "")).getD ""

/-- `return_profiles` accumulation of lines 218-220: initialise the
per-profile dict if absent, then bind one hostname. -/
def mapInsert (m : List (String × List (Hostname × MapDefaults)))
    (p : String) (h : Hostname) (d : MapDefaults) :
    List (String × List (Hostname × MapDefaults)) :=
  dinsert m p (dinsert ((dlookup m p).getD []) h d)

/-- The `itertools.cycle` loop of `_get_map_data` (lines 214-221): step
`j` (Python's `i = j+1`) assigns hostname `fqdn % (j+1)` to the AZ at
cycle position `j mod k`. -/
def mapLoop (profiles : List (String × String)) (cycle_list : List String)
    (map_defaults : MapDefaults) (fqdn : HostTemplate) (no_of_servers : Nat) :
    List (String × List (Hostname × MapDefaults)) :=
  (List.range no_of_servers).foldl
    (fun acc j => mapInsert acc (pnameOf profiles cycle_list j)
      ⟨fqdn, j + 1⟩ map_defaults) []

/-- `_get_map_data` (lines 211-222). -/
def getMapData (profiles : List (String × String)) (no_of_servers : Nat)
    (map_defaults : MapDefaults) (fqdn : HostTemplate) :
    Except PyErr (List (String × List (Hostname × MapDefaults))) := do
  let cycle_list ← getCycleList fqdn (profiles.map Prod.fst)
  pure (mapLoop profiles cycle_list map_defaults fqdn no_of_servers)

/-- A synthesized network interface (`_get_network_interface`, lines
259-266, plus the two optional keys set at lines 252/254). -/
structure NetIface where
  deviceIndex : Nat
  subnetId : String
  securityGroupId : List SGElem
  networkInterfaceId : Option String := none
  privateIpAddress : Option String := none
deriving DecidableEq

/-- `_get_network_interface` (lines 259-266) with no kwargs. -/
def getNetworkInterface (index : Nat) (subnet_id : String)
    (security_groups : List SGElem) : NetIface :=
  { deviceIndex := index, subnetId := subnet_id,
    securityGroupId := security_groups }

/-- `_add_interfaces` (lines 238-256): one interface per declared entry,
device index incrementing in declaration order; the subnet is the
referenced environment's subnet for the current AZ label; a non-empty
per-AZ override dict supplies either a pre-existing interface id (value
contains a hyphen) or a static private address. -/
def addInterfacesGo (envs : List (String × EnvData)) (az_name : String)
    (sec_groups : List SGElem) :
    List IfaceSpec → Nat → Except PyErr (List NetIface)
  | [], _ => .ok []
  | spec :: rest, index => do
    let (env_name, az_ifaces) :=
      match spec with
      | .bare e => (e, ([] : List (String × String)))
      | .withOverride e ov => (e, ov)
    let envData ← ofOption (dlookup envs env_name) (.keyError env_name)
    let subnet ← ofOption (dlookup envData.subnets az_name) (.keyError az_name)
    let base := getNetworkInterface index subnet sec_groups
    let iface ←
      if az_ifaces.isEmpty then
        pure base
      else do
        let v ← ofOption (dlookup az_ifaces az_name) (.keyError az_name)
        if v.contains '-' then
          pure { base with networkInterfaceId := some v }
        else
          pure { base with privateIpAddress := some v }
    let restIfaces ← addInterfacesGo envs az_name sec_groups rest (index + 1)
    pure (iface :: restIfaces)

/-- One resolved role as returned by `_produce_profile`: the merged role
dict with `security_groups` re-bound to the normalised list. -/
structure ResolvedProfile where
  size : Option String := none
  image : Option String := none
  volumes : Option (List Volume) := none
  security_groups : List SGElem := []
  servers : Option Nat := none
  interfaces : Option (List IfaceSpec) := none
  extra : List (String × String) := []
deriving DecidableEq

/-- The volume-tagging pass of lines 297-303 on one volume: initialise
`tags` if absent, write the default tags over it (`dict.update`, so the
defaults win on key clashes), then set `VolumeType` from `type` when
present. -/
def applyVolTag (environment stname : String) (vol : Volume) : Volume :=
  let tags0 := vol.tags.getD []
  let tags1 := dictUpdateAll tags0
    [("Environment", environment), ("Role", stname), ("Service", "ebs")]
  let tags2 :=
    match vol.vtype with
    | some t => dinsert tags1 "VolumeType" t
    | none => tags1
  { vol with tags := some tags2 }

/-- Lines 297-303 over the whole `profile['volumes']` list. -/
def applyVolTags (environment stname : String) (vols : List Volume) :
    List Volume :=
  vols.map (applyVolTag environment stname)

/-- Key-presence test used by the required-parameter gate at line 310.
`security_groups` is re-assigned unconditionally at lines 305-309 before
the gate runs, so for it the test is always true. -/
def ResolvedProfile.hasKey (p : ResolvedProfile) : String → Bool
  | "size" => p.size.isSome
  | "image" => p.image.isSome
  | "security_groups" => true
  | k => (dlookup p.extra k).isSome

/-- `req_parameters` (lines 270-274). -/
def reqParameters : List String := ["size", "image", "security_groups"]

/-- `_produce_profile` (lines 269-317).  `.ok none` models the bare
`return False` of line 315; `.error (.nameError _)` models the
`UnboundLocalError` raised at line 309 when no provider declared a
`common` security group (the binding at lines 287-288 is conditional but
the use at line 309 is not). -/
def produceProfile (server_role : ServerEntry) (defaults : RoleDict)
    (profile_defs : List (String × RoleDict)) (environment : String) :
    Except PyErr (Option (ResolvedProfile × String)) :=
  let stname := (extractEntry server_role).1
  let overrides := (extractEntry server_role).2
  let profile :=
    match dlookup profile_defs stname with
    | some d => defaults.update d
    | none => defaults
  let common_sec :=
    (dlookup profile_defs "common").bind (fun e => e.security_groups)
  let profile := profile.update overrides
  let profile :=
    { profile with volumes := profile.volumes.map (applyVolTags environment stname) }
  match common_sec with
  | none => .error (.nameError "common_sec referenced before assignment")
  | some c =>
    let rp : ResolvedProfile :=
      { size := profile.size, image := profile.image,
        volumes := profile.volumes,
        security_groups := normalizeSG profile.security_groups ++ [sgValToElem c],
        servers := profile.servers, interfaces := profile.interfaces,
        extra := profile.extra }
    if reqParameters.all rp.hasKey then
      .ok (some (rp, stname))
    else
      .ok none

/-- A finished (emitted) profile: the working profile plus `provider`,
`tag` and `network_interfaces`, minus the stripped working-only keys
`security_groups`, `servers` and `interfaces` (lines 179-184). -/
structure FinishedProfile where
  size : Option String := none
  image : Option String := none
  volumes : Option (List Volume) := none
  provider : String
  tag : List (String × String)
  network_interfaces : List NetIface
  extra : List (String × String) := []
deriving DecidableEq

/-- The state threaded through the provider pass of `consume_map`
(lines 102-129): the provider output tree, the environment table, the
role table, and the post-mutation `in_providers` entries. -/
structure Phase1State where
  providersOut : List (String × ProviderOut) := []
  environments : List (String × EnvData) := []
  serverRoles : List (String × RoleDict) := []
  providersPost : List (String × ProviderIn) := []
deriving DecidableEq

/-- One `sizes` item: `update_server(server_roles, role, {'size': size})`. -/
def sizeUpdateStep (tbl : List (String × RoleDict)) (p : String × String) :
    List (String × RoleDict) :=
  update_server tbl p.1 { size := some p.2 }

/-- One `images` item. -/
def imageUpdateStep (tbl : List (String × RoleDict)) (p : String × String) :
    List (String × RoleDict) :=
  update_server tbl p.1 { image := some p.2 }

/-- One `volumes` item. -/
def volumesUpdateStep (tbl : List (String × RoleDict))
    (p : String × List Volume) : List (String × RoleDict) :=
  update_server tbl p.1 { volumes := some p.2 }

/-- One `security_groups` item. -/
def sgUpdateStep (tbl : List (String × RoleDict)) (p : String × SGVal) :
    List (String × RoleDict) :=
  update_server tbl p.1 { security_groups := some p.2 }

/-- One entry of the loop at lines 107-111:
`environments[env] = {availability_zones, subnets}`. -/
def envBuildStep (acc : List (String × EnvData))
    (epair : String × List SubnetDecl) :
    Except PyErr (List (String × EnvData)) := do
  let ed ← envOfSubnetList epair.2
  pure (dinsert acc epair.1 ed)

/-- One iteration of the provider loop (lines 102-129): build the
environment entries, feed the four per-role attribute dicts into the
shared role table, `del` each consumed key from the caller's dict, and
emit the defaults-merged provider. -/
def processProvider (ds : CloudDefaults) (st : Phase1State)
    (entry : String × ProviderIn) : Except PyErr Phase1State := do
  let pname := entry.1
  let prov := entry.2
  let provider : ProviderOut :=
    match ds.providers with
    | none => {}
    | some pd => { default_servers := pd.default_servers, extra := pd.extra }
  let subnets ← ofOption prov.subnets (.keyError "subnets")
  let environments ← subnets.foldlM envBuildStep st.environments
  let prov := { prov with subnets := none }
  let sizes ← ofOption prov.sizes (.keyError "sizes")
  let roles := sizes.foldl sizeUpdateStep st.serverRoles
  let prov := { prov with sizes := none }
  let images ← ofOption prov.images (.keyError "images")
  let roles := images.foldl imageUpdateStep roles
  let prov := { prov with images := none }
  let volumes ← ofOption prov.volumes (.keyError "volumes")
  let roles := volumes.foldl volumesUpdateStep roles
  let prov := { prov with volumes := none }
  let secGroups ← ofOption prov.security_groups (.keyError "security_groups")
  let roles := secGroups.foldl sgUpdateStep roles
  let prov := { prov with security_groups := none }
  let merged : ProviderOut :=
    { default_servers := pyOr prov.default_servers provider.default_servers,
      extra := dictUpdateAll provider.extra prov.extra }
  pure { providersOut := dinsert st.providersOut pname merged,
         environments := environments,
         serverRoles := roles,
         providersPost := st.providersPost ++ [(pname, prov)] }

/-- The accumulator of the servers pass (`providers` is mutated in place
by the `default_servers` deletion at line 138). -/
structure Phase2Acc where
  providers : List (String × ProviderOut) := []
  profiles : List (String × List (String × FinishedProfile)) := []
  maps : List (String × List (String × List (Hostname × MapDefaults))) := []

/-- `start_servers` selection (lines 152-153). -/
def startServers (no_of_servers : Nat) (rp : ResolvedProfile) : Nat :=
  match rp.servers with
  | none => no_of_servers
  | some s => s

/-- The per-AZ loop of lines 156-186: synthesize the network interfaces,
emit one finished profile named `<role>_<env>_<provider><az>` into the
environment's profile subtree, and record the AZ → profile-name pair. -/
def azLoop (environments : List (String × EnvData)) (envData : EnvData)
    (rp : ResolvedProfile) (stname ename pname : String) :
    List String → List (String × FinishedProfile) → List (String × String) →
    Except PyErr (List (String × FinishedProfile) × List (String × String))
  | [], profilesEnv, mapProfiles => .ok (profilesEnv, mapProfiles)
  | az :: rest, profilesEnv, mapProfiles => do
    let ifaces ←
      match rp.interfaces with
      | some ifs => addInterfacesGo environments az rp.security_groups ifs 0
      | none => do
        let sub ← ofOption (dlookup envData.subnets az) (.keyError az)
        pure [getNetworkInterface 0 sub rp.security_groups]
    let profileName := stname ++ "_" ++ ename ++ "_" ++ (pname ++ az)
    let finished : FinishedProfile :=
      { size := rp.size, image := rp.image, volumes := rp.volumes,
        provider := pname, tag := getTags ename stname,
        network_interfaces := ifaces, extra := rp.extra }
    azLoop environments envData rp stname ename pname rest
      (dinsert profilesEnv profileName finished)
      (dinsert mapProfiles az profileName)

/-- One server-role entry of an environment's list (lines 144-199):
resolve the role, run the per-AZ loop, distribute the hostnames.  A
`_produce_profile` validation failure (bare `return False`) is unpacked
into `profile, server_role` at line 145, which raises
`TypeError: cannot unpack non-sequence` — the `if not profile` skip at
lines 147-149 is unreachable. -/
def processRole (ds : CloudDefaults) (environments : List (String × EnvData))
    (roleDefaults : RoleDict) (serverRoles : List (String × RoleDict))
    (pname ename : String) (envData : EnvData) (noOfServers : Nat)
    (acc : Phase2Acc) (entry : ServerEntry) : Except PyErr Phase2Acc := do
  match ← produceProfile entry roleDefaults serverRoles ename with
  | none => .error (.typeError "cannot unpack non-sequence bool")
  | some (rp, stname) => do
    let start_servers := startServers noOfServers rp
    let profilesEnv0 := (dlookup acc.profiles ename).getD []
    let (profilesEnv, mapProfiles) ←
      azLoop environments envData rp stname ename pname
        envData.availability_zones profilesEnv0 []
    let fqdn : HostTemplate := ⟨stname, ename, pname⟩
    let md ← ofOption ds.mappings (.keyError "mappings")
    let mapData ← getMapData mapProfiles start_servers md fqdn
    let mapsEnv0 := (dlookup acc.maps ename).getD []
    pure { acc with
      profiles := dinsert acc.profiles ename profilesEnv,
      maps := dinsert acc.maps ename (dictUpdateAll mapsEnv0 mapData) }

/-- One environment of a provider's server list (lines 140-143): unknown
environment names are skipped with a warning. -/
def processEnvEntry (ds : CloudDefaults)
    (environments : List (String × EnvData)) (roleDefaults : RoleDict)
    (serverRoles : List (String × RoleDict)) (pname : String)
    (noOfServers : Nat) (acc : Phase2Acc)
    (envEntry : String × List ServerEntry) : Except PyErr Phase2Acc :=
  match dlookup environments envEntry.1 with
  | none => .ok acc
  | some envData =>
    envEntry.2.foldlM
      (processRole ds environments roleDefaults serverRoles pname envEntry.1
        envData noOfServers) acc

/-- One provider of the servers tree (lines 133-199): unknown provider
names are skipped; otherwise `default_servers` is read from the
provider's merged output entry and deleted from it. -/
def processProviderServers (ds : CloudDefaults)
    (environments : List (String × EnvData)) (roleDefaults : RoleDict)
    (serverRoles : List (String × RoleDict)) (acc : Phase2Acc)
    (entry : String × List (String × List ServerEntry)) :
    Except PyErr Phase2Acc :=
  match dlookup acc.providers entry.1 with
  | none => .ok acc
  | some provOut => do
    let noOfServers ← ofOption provOut.default_servers
      (.keyError "default_servers")
    let acc := { acc with
      providers := dinsert acc.providers entry.1
        { provOut with default_servers := none } }
    entry.2.foldlM
      (processEnvEntry ds environments roleDefaults serverRoles entry.1
        noOfServers) acc

/-- The value returned by `consume_map` plus (state-passing model of the
in-place `del` mutations) the post-call state of the caller's
`in_providers` tree. -/
structure ConsumeResult where
  providers : List (String × ProviderOut)
  profiles : List (String × List (String × FinishedProfile))
  maps : List (String × List (String × List (Hostname × MapDefaults)))
  inProvidersAfter : List (String × ProviderIn)

/-- `consume_map` (lines 89-200). -/
def consumeMap (inProviders : List (String × ProviderIn))
    (inServers : List (String × List (String × List ServerEntry)))
    (cloudDefaults : CloudDefaults) : Except PyErr ConsumeResult := do
  let serverRoles0 : List (String × RoleDict) :=
    match cloudDefaults.profiles with
    | some p => [("default", p)]
    | none => []
  let st ← inProviders.foldlM (processProvider cloudDefaults)
    { serverRoles := serverRoles0 }
  let roleDefaults ← ofOption (dlookup st.serverRoles "default")
    (.keyError "default")
  let acc ← inServers.foldlM
    (processProviderServers cloudDefaults st.environments roleDefaults
      st.serverRoles)
    { providers := st.providersOut }
  pure ⟨acc.providers, acc.profiles, acc.maps, st.providersPost⟩

/-! ## Association-list lemmas -/

theorem dlookup_dinsert_self {κ α : Type} [DecidableEq κ]
    (m : List (κ × α)) (k : κ) (v : α) :
    dlookup (dinsert m k v) k = some v := by
  induction m with
  | nil => simp [dinsert, dlookup]
  | cons p rest ih =>
    by_cases h : p.1 = k
    · simp [dinsert, dlookup, h]
    · simp [dinsert, dlookup, h, ih]

theorem dlookup_dinsert_ne {κ α : Type} [DecidableEq κ]
    (m : List (κ × α)) (k k' : κ) (v : α) (h : k' ≠ k) :
    dlookup (dinsert m k v) k' = dlookup m k' := by
  have hk : k ≠ k' := fun he => h he.symm
  induction m with
  | nil => simp [dinsert, dlookup, hk]
  | cons p rest ih =>
    obtain ⟨pk, pv⟩ := p
    by_cases hp : pk = k
    · subst hp
      simp [dinsert, dlookup, hk]
    · simp [dinsert, dlookup, hp, ih]

theorem dinsert_of_not_mem {κ α : Type} [DecidableEq κ]
    (m : List (κ × α)) (k : κ) (v : α) (h : k ∉ m.map Prod.fst) :
    dinsert m k v = m ++ [(k, v)] := by
  induction m with
  | nil => simp [dinsert]
  | cons p rest ih =>
    obtain ⟨pk, pv⟩ := p
    simp only [List.map_cons, List.mem_cons, not_or] at h
    have hpk : pk ≠ k := fun he => h.1 he.symm
    simp [dinsert, hpk, ih h.2]

theorem dlookup_eq_none {κ α : Type} [DecidableEq κ]
    (m : List (κ × α)) (k : κ) (h : k ∉ m.map Prod.fst) :
    dlookup m k = none := by
  induction m with
  | nil => simp [dlookup]
  | cons p rest ih =>
    obtain ⟨pk, pv⟩ := p
    simp only [List.map_cons, List.mem_cons, not_or] at h
    have hpk : pk ≠ k := fun he => h.1 he.symm
    simp [dlookup, hpk, ih h.2]

theorem mem_keys_of_dlookup {κ α : Type} [DecidableEq κ]
    {m : List (κ × α)} {k : κ} {v : α} (h : dlookup m k = some v) :
    k ∈ m.map Prod.fst := by
  induction m with
  | nil => simp [dlookup] at h
  | cons p rest ih =>
    obtain ⟨pk, pv⟩ := p
    by_cases hp : pk = k
    · simp [hp]
    · simp only [dlookup, hp, if_false] at h
      simp [ih h]

theorem mem_of_dlookup {κ α : Type} [DecidableEq κ]
    {m : List (κ × α)} {k : κ} {v : α} (h : dlookup m k = some v) :
    (k, v) ∈ m := by
  induction m with
  | nil => simp [dlookup] at h
  | cons p rest ih =>
    obtain ⟨pk, pv⟩ := p
    by_cases hp : pk = k
    · subst hp
      simp [dlookup] at h
      subst h
      exact List.mem_cons_self _ _
    · simp only [dlookup, hp, if_false] at h
      exact List.mem_cons_of_mem _ (ih h)

theorem dlookup_of_mem_nodup {κ α : Type} [DecidableEq κ]
    {m : List (κ × α)} {k : κ} {v : α}
    (hnd : (m.map Prod.fst).Nodup) (h : (k, v) ∈ m) :
    dlookup m k = some v := by
  induction m with
  | nil => simp at h
  | cons p rest ih =>
    obtain ⟨pk, pv⟩ := p
    simp only [List.map_cons, List.nodup_cons] at hnd
    rcases List.mem_cons.mp h with he | hm
    · injection he with h1 h2
      subst h1
      subst h2
      simp [dlookup]
    · have hk : pk ≠ k := by
        intro he
        subst he
        exact hnd.1 (List.mem_map_of_mem Prod.fst hm)
      simp [dlookup, hk, ih hnd.2 hm]

theorem key_eq_of_value_nodup {κ α : Type} [DecidableEq κ]
    {m : List (κ × α)} {k k' : κ} {v : α}
    (hv : (m.map Prod.snd).Nodup) (h : (k, v) ∈ m) (h' : (k', v) ∈ m) :
    k = k' := by
  induction m with
  | nil => simp at h
  | cons p rest ih =>
    obtain ⟨pk, pv⟩ := p
    simp only [List.map_cons, List.nodup_cons] at hv
    rcases List.mem_cons.mp h with he | hm <;>
      rcases List.mem_cons.mp h' with he' | hm'
    · injection he with a1 a2
      injection he' with b1 b2
      rw [a1, b1]
    · exfalso
      injection he with a1 a2
      exact hv.1 (a2 ▸ List.mem_map_of_mem Prod.snd hm')
    · exfalso
      injection he' with b1 b2
      exact hv.1 (b2 ▸ List.mem_map_of_mem Prod.snd hm)
    · exact ih hv.2 hm hm'

/-! ## C1 / C2: the validation-failure and missing-common-group paths
raise exceptions out of `consume_map` -/

/-- Defaults tree of the documented shape, used by the concrete runs. -/
def exDefaults : CloudDefaults :=
  { providers := some { default_servers := some 5 },
    profiles := some {},
    mappings := some [("minion", [("master", "salt.example.com")])] }

/-- A provider declaring a `common` security group but neither a size nor
an image for role `web`. -/
def exC1Provider : ProviderIn :=
  { subnets := some [("test", [[("A", "subnet-a")]])],
    sizes := some [], images := some [], volumes := some [],
    security_groups := some [("common", .one "sg-c")] }

/-- C1: a server-list entry whose merged role lacks `image` (and `size`)
does not lead to a warn-and-skip: `_produce_profile` returns the bare
`False` of line 315 and the two-name unpacking at line 145 raises
`TypeError`, aborting the whole run — the skip at lines 147-149 is
unreachable, so the failure IS fatal and no profiles/maps are returned at
all. -/
theorem consumeMap_invalid_role_raises :
    consumeMap [("p1", exC1Provider)] [("p1", [("test", [.bare "web"])])]
      exDefaults
      = .error (.typeError "cannot unpack non-sequence bool") := rfl

/-- A provider with a fully valid role `web` but no `common` security
group declared anywhere. -/
def exC2Provider : ProviderIn :=
  { subnets := some [("test", [[("A", "subnet-a")]])],
    sizes := some [("web", "m1")], images := some [("web", "ami-1")],
    volumes := some [], security_groups := some [] }

/-- C2: `consume_map` raises an exception to its caller on a
documented-shape input: with no provider declaring a `common` security
group, the conditional binding of `common_sec` (lines 287-288) never
runs and the unconditional `append` at line 309 raises
`UnboundLocalError` (a `NameError`), which propagates out of
`consume_map`. -/
theorem consumeMap_missing_common_raises :
    consumeMap [("p1", exC2Provider)] [("p1", [("test", [.bare "web"])])]
      exDefaults
      = .error (.nameError "common_sec referenced before assignment") := rfl

/-! ## C4: determinism / idempotence -/

/-- C4: the transform is deterministic: structurally identical inputs
give structurally identical outputs, and the AZ rotation used by the
hostname distribution (`_get_cycle_list`) is a pure function of the
hostname template and the AZ-label list — in particular it does not
depend on the instance count, the per-host defaults, or the profile
names, so the same template over the same AZs always yields the same
starting AZ. -/
theorem consumeMap_deterministic :
    (∀ ps ss ds ps' ss' ds', ps = ps' → ss = ss' → ds = ds' →
      consumeMap ps ss ds = consumeMap ps' ss' ds')
    ∧ (∀ (f : HostTemplate) (profs profs' : List (String × String)),
      profs.map Prod.fst = profs'.map Prod.fst →
      getCycleList f (profs.map Prod.fst)
        = getCycleList f (profs'.map Prod.fst)) := by
  constructor
  · intro ps ss ds ps' ss' ds' h1 h2 h3
    rw [h1, h2, h3]
  · intro f profs profs' h
    rw [h]

/-- Witness for C4 at concrete inputs: the second application has equal
AZ-label lists but different profile names on the two sides. -/
theorem consumeMap_deterministic_witness :
    consumeMap [] [] {} = consumeMap [] [] {} ∧
    getCycleList ⟨"web", "test", "p1"⟩
        (([("A", "x"), ("B", "y")] : List (String × String)).map Prod.fst)
      = getCycleList ⟨"web", "test", "p1"⟩
        (([("A", "u"), ("B", "w")] : List (String × String)).map Prod.fst) :=
  ⟨consumeMap_deterministic.1 [] [] {} [] [] {} rfl rfl rfl,
   consumeMap_deterministic.2 ⟨"web", "test", "p1"⟩
     [("A", "x"), ("B", "y")] [("A", "u"), ("B", "w")] rfl⟩

/-! ## C5: volume tagging -/

/-- Overrides for role `db`: one volume carrying a caller-supplied
`Environment` tag. -/
def exC5Overrides : RoleDict :=
  { volumes := some [{ vtype := some "gp3",
                       tags := some [("Environment", "keep")] }] }

/-- Role table for the C5 run. -/
def exC5Defs : List (String × RoleDict) :=
  [("common", { security_groups := some (.one "sg-c") }),
   ("db", { size := some "m1", image := some "ami-1" })]

/-- C5 counterexample: the caller supplied `Environment: keep` on the
volume, but after resolution the tag reads `Environment: test` — line
301 is `vol['tags'].update(default_tags)`, which overwrites
caller-supplied values for the default keys rather than merging around
them. -/
theorem volume_tags_overwrite_counterexample :
    ((produceProfile (.withOverrides "db" exC5Overrides) {} exC5Defs
        "test").toOption.bind
      (fun r => r.bind (fun pr => pr.1.volumes.map (fun vs =>
        vs.map (fun v => dlookup (v.tags.getD []) "Environment")))))
      = some [some "test"] ∧ ("test" : String) ≠ "keep" := ⟨rfl, by decide⟩

/-- C5 amended: for every volume entry of a resolved role, the tags end
up containing `Environment` (the environment name), `Role` (the role
name) and `Service: ebs` with the DEFAULT values — `dict.update`
overwrites any caller-supplied values for those keys — and `VolumeType`
equals the volume's `type` field whenever that field is present. -/
theorem volume_tags_amended (environment stname : String) (vols : List Volume)
    (vol : Volume) (hmem : vol ∈ vols) :
    ∃ tv ∈ applyVolTags environment stname vols,
      dlookup (tv.tags.getD []) "Environment" = some environment ∧
      dlookup (tv.tags.getD []) "Role" = some stname ∧
      dlookup (tv.tags.getD []) "Service" = some "ebs" ∧
      (∀ t, vol.vtype = some t →
        dlookup (tv.tags.getD []) "VolumeType" = some t) := by
  refine ⟨applyVolTag environment stname vol,
    List.mem_map_of_mem _ hmem, ?_⟩
  have hupd : dictUpdateAll (vol.tags.getD [])
      [("Environment", environment), ("Role", stname), ("Service", "ebs")]
      = dinsert (dinsert (dinsert (vol.tags.getD []) "Environment" environment)
          "Role" stname) "Service" "ebs" := rfl
  cases hv : vol.vtype with
  | none =>
    simp only [applyVolTag, hv, hupd, Option.getD_some]
    refine ⟨?_, ?_, ?_, ?_⟩
    · rw [dlookup_dinsert_ne _ _ _ _ (by decide),
        dlookup_dinsert_ne _ _ _ _ (by decide), dlookup_dinsert_self]
    · rw [dlookup_dinsert_ne _ _ _ _ (by decide), dlookup_dinsert_self]
    · rw [dlookup_dinsert_self]
    · intro t ht
      exact absurd ht (by simp)
  | some ty =>
    simp only [applyVolTag, hv, hupd, Option.getD_some]
    refine ⟨?_, ?_, ?_, ?_⟩
    · rw [dlookup_dinsert_ne _ _ _ _ (by decide),
        dlookup_dinsert_ne _ _ _ _ (by decide),
        dlookup_dinsert_ne _ _ _ _ (by decide), dlookup_dinsert_self]
    · rw [dlookup_dinsert_ne _ _ _ _ (by decide),
        dlookup_dinsert_ne _ _ _ _ (by decide), dlookup_dinsert_self]
    · rw [dlookup_dinsert_ne _ _ _ _ (by decide), dlookup_dinsert_self]
    · intro t ht
      injection ht with ht
      subst ht
      rw [dlookup_dinsert_self]

/-- Witness for C5's amended theorem at a concrete volume. -/
theorem volume_tags_amended_witness :
    ∃ tv ∈ applyVolTags "test" "db"
        [{ vtype := some "gp3", tags := some [("Environment", "keep")] }],
      dlookup (tv.tags.getD []) "Environment" = some "test" ∧
      dlookup (tv.tags.getD []) "Role" = some "db" ∧
      dlookup (tv.tags.getD []) "Service" = some "ebs" ∧
      (∀ t, ({ vtype := some "gp3",
               tags := some [("Environment", "keep")] } : Volume).vtype
          = some t →
        dlookup (tv.tags.getD []) "VolumeType" = some t) :=
  volume_tags_amended "test" "db" _ _ (List.mem_singleton.mpr rfl)

/-! ## Except helpers for reasoning about the do-blocks -/

theorem exceptBind_ok {ε α β : Type} {x : Except ε α} {f : α → Except ε β}
    {b : β} (h : x >>= f = .ok b) : ∃ a, x = .ok a ∧ f a = .ok b := by
  cases x with
  | error e => simp [Bind.bind, Except.bind] at h
  | ok a => exact ⟨a, rfl, by simpa [Bind.bind, Except.bind] using h⟩

theorem ofOption_ok {α : Type} {o : Option α} {e : PyErr} {a : α}
    (h : ofOption o e = .ok a) : o = some a := by
  cases o with
  | none => simp [ofOption] at h
  | some v => simpa [ofOption] using h

theorem pure_ok {ε α : Type} {a b : α}
    (h : (pure a : Except ε α) = .ok b) : a = b := by
  simpa [pure, Except.pure] using h

/-! ## C9: consume_map mutates the caller's provider tree -/

/-- A provider entry whose five consumable keys were all deleted by
`consume_map`. -/
def provConsumed (p : ProviderIn) : Prop :=
  p.subnets = none ∧ p.sizes = none ∧ p.images = none ∧
  p.volumes = none ∧ p.security_groups = none

/-- Provider used in the C9 run. -/
def exC9Provider : ProviderIn :=
  { subnets := some [("test", [[("A", "subnet-a")]])],
    sizes := some [("web", "m1")], images := some [], volumes := some [],
    security_groups := some [] }

/-- C9 counterexample: after a successful run, the caller-owned provider
entry has lost its `subnets` key (and the input had it): the `del`
statements at lines 113-127 act on the caller's dicts, not on private
copies, so the input trees are NOT unmodified. -/
theorem input_mutation_counterexample :
    ((consumeMap [("p1", exC9Provider)] [] exDefaults).toOption.bind
      (fun r => (dlookup r.inProvidersAfter "p1").map (fun p => p.subnets)))
      = some none ∧ exC9Provider.subnets ≠ none := ⟨rfl, by decide⟩

theorem processProvider_post (ds : CloudDefaults) (st : Phase1State)
    (entry : String × ProviderIn) (st' : Phase1State)
    (h : processProvider ds st entry = .ok st') :
    ∃ p : ProviderIn,
      st'.providersPost = st.providersPost ++ [(entry.1, p)] ∧
      provConsumed p := by
  unfold processProvider at h
  obtain ⟨subnets, hs, h⟩ := exceptBind_ok h
  obtain ⟨envs, he, h⟩ := exceptBind_ok h
  obtain ⟨sizes, hsz, h⟩ := exceptBind_ok h
  obtain ⟨images, him, h⟩ := exceptBind_ok h
  obtain ⟨volumes, hv, h⟩ := exceptBind_ok h
  obtain ⟨secg, hsg, h⟩ := exceptBind_ok h
  have h' := pure_ok h
  subst h'
  exact ⟨_, rfl, rfl, rfl, rfl, rfl, rfl⟩

theorem phase1_fold_post (ds : CloudDefaults) :
    ∀ (l : List (String × ProviderIn)) (st st' : Phase1State),
      l.foldlM (processProvider ds) st = .ok st' →
      (∀ e ∈ st.providersPost, provConsumed e.2) →
      ∀ e ∈ st'.providersPost, provConsumed e.2 := by
  intro l
  induction l with
  | nil =>
    intro st st' h hinv
    rw [List.foldlM_nil] at h
    have h' := pure_ok h
    subst h'
    exact hinv
  | cons x xs ih =>
    intro st st' h hinv
    rw [List.foldlM_cons] at h
    obtain ⟨st1, h1, h2⟩ := exceptBind_ok h
    obtain ⟨p, hpost, hcons⟩ := processProvider_post ds st x st1 h1
    refine ih st1 st' h2 ?_
    intro e he
    rw [hpost] at he
    rcases List.mem_append.mp he with hm | hm
    · exact hinv e hm
    · rw [List.mem_singleton.mp hm]
      exact hcons

/-- C9 amended: `consume_map` does NOT leave the caller-owned input trees
unmodified: the `del` statements remove `subnets`, `sizes`, `images`,
`volumes` and `security_groups` from every provider entry of the
caller's `in_providers` tree (the deletions hit the caller's dicts, not
private working copies).  On every successful run, every entry of the
post-call provider input tree has lost all five keys. -/
theorem providers_post_stripped (inProviders : List (String × ProviderIn))
    (inServers : List (String × List (String × List ServerEntry)))
    (ds : CloudDefaults) (r : ConsumeResult)
    (hok : consumeMap inProviders inServers ds = .ok r) :
    ∀ e ∈ r.inProvidersAfter, provConsumed e.2 := by
  unfold consumeMap at hok
  obtain ⟨st, h1, hok⟩ := exceptBind_ok hok
  obtain ⟨rd, h2, hok⟩ := exceptBind_ok hok
  obtain ⟨acc, h3, hok⟩ := exceptBind_ok hok
  have h' := pure_ok hok
  subst h'
  intro e he
  exact phase1_fold_post ds inProviders _ st h1 (by intro e h; simp at h) e he

/-- Witness for C9's amended theorem: the single post-call entry of the
concrete run has all five keys deleted. -/
theorem providers_post_stripped_witness :
    provConsumed ({ exC9Provider with
      subnets := none
      sizes := none
      images := none
      volumes := none
      security_groups := none }) :=
  providers_post_stripped [("p1", exC9Provider)] [] exDefaults
    ⟨[("p1", { default_servers := some 5 })], [], [],
      [("p1", { exC9Provider with
        subnets := none
        sizes := none
        images := none
        volumes := none
        security_groups := none })]⟩
    rfl _ (List.mem_singleton.mpr rfl)

/-! ## C7: consumption of default_servers -/

/-- Provider used in the C7 runs. -/
def exC7Provider : ProviderIn :=
  { subnets := some [("test", [[("A", "subnet-a")]])],
    sizes := some [("web", "m1")], images := some [], volumes := some [],
    security_groups := some [] }

/-- C7 counterexample: a provider that appears in `in_providers` but in
no entry of the servers tree keeps `default_servers` in the emitted
provider output tree — the read-and-delete at lines 137-138 only runs
for providers named by `in_servers`, so the key IS present in the output
for this provider, contradicting the claim that it never is. -/
theorem default_servers_retained_counterexample :
    ((consumeMap [("p1", exC7Provider)] [] exDefaults).toOption.bind
      (fun r => (dlookup r.providers "p1").map (fun po => po.default_servers)))
      = some (some 5) ∧ (some 5 : Option Nat) ≠ none := ⟨rfl, by decide⟩

/-- The provider output entry for `q`, if present, has had its
`default_servers` key deleted. -/
def dsNoneAt (acc : Phase2Acc) (q : String) : Prop :=
  ∀ po, dlookup acc.providers q = some po → po.default_servers = none

theorem processRole_providers (ds : CloudDefaults)
    (envs : List (String × EnvData)) (rd : RoleDict)
    (srs : List (String × RoleDict)) (pname ename : String)
    (envData : EnvData) (noOf : Nat) (acc acc' : Phase2Acc)
    (entry : ServerEntry)
    (h : processRole ds envs rd srs pname ename envData noOf acc entry
      = .ok acc') :
    acc'.providers = acc.providers := by
  unfold processRole at h
  obtain ⟨res, h1, h⟩ := exceptBind_ok h
  cases res with
  | none => simp [Bind.bind, Except.bind] at h
  | some pr =>
    obtain ⟨rp, stname⟩ := pr
    obtain ⟨az, h2, h⟩ := exceptBind_ok h
    obtain ⟨md, h3, h⟩ := exceptBind_ok h
    obtain ⟨mapData, h4, h⟩ := exceptBind_ok h
    have h' := pure_ok h
    subst h'
    rfl

theorem processRole_fold_providers (ds : CloudDefaults)
    (envs : List (String × EnvData)) (rd : RoleDict)
    (srs : List (String × RoleDict)) (pname ename : String)
    (envData : EnvData) (noOf : Nat) :
    ∀ (l : List ServerEntry) (acc acc' : Phase2Acc),
      l.foldlM (processRole ds envs rd srs pname ename envData noOf) acc
        = .ok acc' →
      acc'.providers = acc.providers := by
  intro l
  induction l with
  | nil =>
    intro acc acc' h
    rw [List.foldlM_nil] at h
    rw [pure_ok h]
  | cons x xs ih =>
    intro acc acc' h
    rw [List.foldlM_cons] at h
    obtain ⟨acc1, h1, h2⟩ := exceptBind_ok h
    rw [ih acc1 acc' h2,
      processRole_providers ds envs rd srs pname ename envData noOf acc acc1
        x h1]

theorem processEnvEntry_providers (ds : CloudDefaults)
    (envs : List (String × EnvData)) (rd : RoleDict)
    (srs : List (String × RoleDict)) (pname : String) (noOf : Nat)
    (acc acc' : Phase2Acc) (envEntry : String × List ServerEntry)
    (h : processEnvEntry ds envs rd srs pname noOf acc envEntry = .ok acc') :
    acc'.providers = acc.providers := by
  unfold processEnvEntry at h
  cases hl : dlookup envs envEntry.1 with
  | none =>
    rw [hl] at h
    simp only [Except.ok.injEq] at h
    rw [← h]
  | some envData =>
    rw [hl] at h
    exact processRole_fold_providers ds envs rd srs pname envEntry.1 envData
      noOf envEntry.2 acc acc' h

theorem processEnvEntry_fold_providers (ds : CloudDefaults)
    (envs : List (String × EnvData)) (rd : RoleDict)
    (srs : List (String × RoleDict)) (pname : String) (noOf : Nat) :
    ∀ (l : List (String × List ServerEntry)) (acc acc' : Phase2Acc),
      l.foldlM (processEnvEntry ds envs rd srs pname noOf) acc = .ok acc' →
      acc'.providers = acc.providers := by
  intro l
  induction l with
  | nil =>
    intro acc acc' h
    rw [List.foldlM_nil] at h
    rw [pure_ok h]
  | cons x xs ih =>
    intro acc acc' h
    rw [List.foldlM_cons] at h
    obtain ⟨acc1, h1, h2⟩ := exceptBind_ok h
    rw [ih acc1 acc' h2,
      processEnvEntry_providers ds envs rd srs pname noOf acc acc1 x h1]

theorem processProviderServers_dsNone (ds : CloudDefaults)
    (envs : List (String × EnvData)) (rd : RoleDict)
    (srs : List (String × RoleDict)) (acc acc' : Phase2Acc)
    (entry : String × List (String × List ServerEntry))
    (h : processProviderServers ds envs rd srs acc entry = .ok acc') :
    (∀ q, dsNoneAt acc q → dsNoneAt acc' q) ∧ dsNoneAt acc' entry.1 := by
  unfold processProviderServers at h
  cases hl : dlookup acc.providers entry.1 with
  | none =>
    rw [hl] at h
    simp only [Except.ok.injEq] at h
    subst h
    constructor
    · intro q hq
      exact hq
    · intro po hpo
      rw [hl] at hpo
      cases hpo
  | some provOut =>
    rw [hl] at h
    obtain ⟨noOf, h1, h2⟩ := exceptBind_ok h
    have hprov := processEnvEntry_fold_providers ds envs rd srs entry.1 noOf
      entry.2 _ acc' h2
    constructor
    · intro q hq po hpo
      rw [hprov] at hpo
      by_cases hqe : q = entry.1
      · subst hqe
        rw [dlookup_dinsert_self] at hpo
        injection hpo with hpo
        rw [← hpo]
      · rw [dlookup_dinsert_ne _ _ _ _ hqe] at hpo
        exact hq po hpo
    · intro po hpo
      rw [hprov] at hpo
      rw [dlookup_dinsert_self] at hpo
      injection hpo with hpo
      rw [← hpo]

theorem phase2_fold_preserves_dsNone (ds : CloudDefaults)
    (envs : List (String × EnvData)) (rd : RoleDict)
    (srs : List (String × RoleDict)) :
    ∀ (l : List (String × List (String × List ServerEntry)))
      (acc acc' : Phase2Acc),
      l.foldlM (processProviderServers ds envs rd srs) acc = .ok acc' →
      ∀ q, dsNoneAt acc q → dsNoneAt acc' q := by
  intro l
  induction l with
  | nil =>
    intro acc acc' h q hq
    rw [List.foldlM_nil] at h
    rw [← pure_ok h]
    exact hq
  | cons x xs ih =>
    intro acc acc' h q hq
    rw [List.foldlM_cons] at h
    obtain ⟨acc1, h1, h2⟩ := exceptBind_ok h
    exact ih acc1 acc' h2 q
      ((processProviderServers_dsNone ds envs rd srs acc acc1 x h1).1 q hq)

theorem phase2_fold_dsNone (ds : CloudDefaults)
    (envs : List (String × EnvData)) (rd : RoleDict)
    (srs : List (String × RoleDict)) :
    ∀ (l : List (String × List (String × List ServerEntry)))
      (acc acc' : Phase2Acc),
      l.foldlM (processProviderServers ds envs rd srs) acc = .ok acc' →
      ∀ p ∈ l.map Prod.fst, dsNoneAt acc' p := by
  intro l
  induction l with
  | nil =>
    intro acc acc' h p hp
    simp at hp
  | cons x xs ih =>
    intro acc acc' h p hp
    rw [List.foldlM_cons] at h
    obtain ⟨acc1, h1, h2⟩ := exceptBind_ok h
    rcases List.mem_cons.mp hp with he | hm
    · rw [he]
      exact phase2_fold_preserves_dsNone ds envs rd srs xs acc1 acc' h2 x.1
        (processProviderServers_dsNone ds envs rd srs acc acc1 x h1).2
    · exact ih acc1 acc' h2 p hm

/-- C7 amended: `default_servers` is removed only from the output entries
of providers that the servers tree references (lines 137-138 run once
per `in_servers` key): for every provider name that appears in the
servers input, the key is absent from that provider's output entry; a
provider with no server entries retains it. -/
theorem default_servers_consumed_for_served
    (inProviders : List (String × ProviderIn))
    (inServers : List (String × List (String × List ServerEntry)))
    (ds : CloudDefaults) (r : ConsumeResult)
    (hok : consumeMap inProviders inServers ds = .ok r)
    (pname : String) (hmem : pname ∈ inServers.map Prod.fst)
    (po : ProviderOut) (hlook : dlookup r.providers pname = some po) :
    po.default_servers = none := by
  unfold consumeMap at hok
  obtain ⟨st, h1, hok⟩ := exceptBind_ok hok
  obtain ⟨rd, h2, hok⟩ := exceptBind_ok hok
  obtain ⟨acc, h3, hok⟩ := exceptBind_ok hok
  have h' := pure_ok hok
  subst h'
  exact phase2_fold_dsNone ds st.environments rd st.serverRoles inServers _
    acc h3 pname hmem po hlook

/-- Witness for C7's amended theorem at a concrete run (a provider that
the servers tree references with an empty environment list). -/
theorem default_servers_consumed_witness :
    ({ default_servers := none } : ProviderOut).default_servers = none :=
  default_servers_consumed_for_served [("p1", exC7Provider)] [("p1", [])]
    exDefaults
    ⟨[("p1", { default_servers := none })], [], [],
      [("p1", { exC7Provider with
        subnets := none
        sizes := none
        images := none
        volumes := none
        security_groups := none })]⟩
    rfl "p1" (List.mem_singleton.mpr rfl) _ rfl

/-! ## C6: the common security group -/

/-- Role table for the C6 counterexample: role `web` itself lists the
common group id among its declared groups. -/
def exC6Defs : List (String × RoleDict) :=
  [("common", { security_groups := some (.one "sg-c") }),
   ("web", { size := some "m1", image := some "ami-1",
             security_groups := some (.many ["sg-c"]) })]

/-- C6 counterexample: when the role's own declared groups already
contain the common group id, the unconditional `append` at line 309 adds
it a second time — the resolved list holds the common id twice, not
exactly once. -/
theorem common_group_twice_counterexample :
    ((produceProfile (.bare "web") RoleDict.empty exC6Defs "test").toOption.bind
      (fun r => r.map (fun pr => pr.1.security_groups.count (SGElem.id "sg-c"))))
      = some 2 ∧ (2 : Nat) ≠ 1 := ⟨rfl, by decide⟩

/-- C6 amended: when a `common` security group is declared, its id is
appended exactly once as the FINAL element of every resolved role's
security-group list, after all overrides; it therefore appears exactly
once provided the role's own (normalised, merged) groups do not already
contain it — a role that lists the common id itself ends up with a
duplicate. -/
theorem common_group_appended_last (entry : ServerEntry)
    (defaults : RoleDict) (profile_defs : List (String × RoleDict))
    (environment : String) (c : SGVal)
    (hc : (dlookup profile_defs "common").bind (fun e => e.security_groups)
      = some c)
    (rp : ResolvedProfile) (st : String)
    (hok : produceProfile entry defaults profile_defs environment
      = .ok (some (rp, st))) :
    rp.security_groups.getLast? = some (sgValToElem c) ∧
    (sgValToElem c ∉ rp.security_groups.dropLast →
      rp.security_groups.count (sgValToElem c) = 1) := by
  unfold produceProfile at hok
  rw [hc] at hok
  simp only [] at hok
  split at hok
  · simp only [Except.ok.injEq, Option.some.injEq, Prod.mk.injEq] at hok
    obtain ⟨hrp, hst⟩ := hok
    subst hrp
    constructor
    · simp
    · intro hnot
      rw [List.dropLast_concat] at hnot
      rw [List.count_append, List.count_eq_zero_of_not_mem hnot]
      simp
  · cases hok

/-- Role table for the C6 witness: `web` declares no groups of its own. -/
def exC6WDefs : List (String × RoleDict) :=
  [("common", { security_groups := some (.one "sg-c") }),
   ("web", { size := some "m1", image := some "ami-1" })]

/-- The profile the C6 witness run resolves. -/
def exC6W : ResolvedProfile :=
  { size := some "m1", image := some "ami-1",
    security_groups := [.id "sg-c"] }

/-- Witness for C6's amended theorem at a concrete run. -/
theorem common_group_appended_last_witness :
    exC6W.security_groups.getLast? = some (sgValToElem (.one "sg-c")) ∧
    (sgValToElem (.one "sg-c") ∉ exC6W.security_groups.dropLast →
      exC6W.security_groups.count (sgValToElem (.one "sg-c")) = 1) :=
  common_group_appended_last (.bare "web") RoleDict.empty exC6WDefs "test"
    (.one "sg-c") rfl exC6W "web" rfl

/-! ## C8: the role table is shared across providers -/

/-- Provider `p1` of the C8 counterexample: declares `web` size `s1`. -/
def exC8P1 : ProviderIn :=
  { subnets := some [("test", [[("A", "subnet-a")]])],
    sizes := some [("web", "s1")], images := some [("web", "ami-1")],
    volumes := some [], security_groups := some [("common", .one "sg-c")] }

/-- Provider `p2` of the C8 counterexample: re-declares `web` size `s2`
and is processed after `p1`. -/
def exC8P2 : ProviderIn :=
  { subnets := some [], sizes := some [("web", "s2")], images := some [],
    volumes := some [], security_groups := some [] }

/-- C8 counterexample: the servers tree only references `p1`, whose
declared size for `web` is `s1`, yet the resolved profile has size `s2`
declared by `p2`: `server_roles` is one table shared by all providers
(lines 115-126), so a different provider's attributes DO influence the
result. -/
theorem cross_provider_influence_counterexample :
    ((consumeMap [("p1", exC8P1), ("p2", exC8P2)]
        [("p1", [("test", [.bare "web"])])] exDefaults).toOption.bind
      (fun r => (dlookup r.profiles "test").bind
        (fun e => (dlookup e "web_test_p1A").map (fun fp => fp.size))))
      = some (some "s2") ∧ (some "s2" : Option String) ≠ some "s1" :=
  ⟨rfl, by decide⟩

/-- The size attribute recorded for role `r` in a role table. -/
def sizeAt (tbl : List (String × RoleDict)) (r : String) : Option String :=
  (dlookup tbl r).bind (fun e => e.size)

theorem getD_empty_size (o : Option RoleDict) :
    (o.getD RoleDict.empty).size = o.bind (fun e => e.size) := by
  cases o <;> rfl

theorem sizeAt_update_server (tbl : List (String × RoleDict)) (q : String)
    (values : RoleDict) (r : String) :
    sizeAt (update_server tbl q values) r =
      if q = r then pyOr values.size (sizeAt tbl r) else sizeAt tbl r := by
  by_cases hq : q = r
  · subst hq
    rw [if_pos rfl]
    simp only [sizeAt, update_server, dlookup_dinsert_self, Option.some_bind]
    unfold RoleDict.update
    simp only [getD_empty_size]
  · simp only [sizeAt, update_server, dlookup_dinsert_ne _ _ _ _
      (fun he => hq he.symm), if_neg hq]

theorem sizeAt_fold_preserved {β : Type}
    (step : List (String × RoleDict) → β → List (String × RoleDict))
    (hstep : ∀ tbl p r, sizeAt (step tbl p) r = sizeAt tbl r) :
    ∀ (l : List β) (tbl : List (String × RoleDict)) (r : String),
      sizeAt (l.foldl step tbl) r = sizeAt tbl r := by
  intro l
  induction l with
  | nil => intro tbl r; rfl
  | cons x xs ih =>
    intro tbl r
    rw [List.foldl_cons, ih, hstep]

theorem sizeAt_imageStep (tbl : List (String × RoleDict))
    (p : String × String) (r : String) :
    sizeAt (imageUpdateStep tbl p) r = sizeAt tbl r := by
  unfold imageUpdateStep
  rw [sizeAt_update_server]
  split <;> rfl

theorem sizeAt_volumesStep (tbl : List (String × RoleDict))
    (p : String × List Volume) (r : String) :
    sizeAt (volumesUpdateStep tbl p) r = sizeAt tbl r := by
  unfold volumesUpdateStep
  rw [sizeAt_update_server]
  split <;> rfl

theorem sizeAt_sgStep (tbl : List (String × RoleDict))
    (p : String × SGVal) (r : String) :
    sizeAt (sgUpdateStep tbl p) r = sizeAt tbl r := by
  unfold sgUpdateStep
  rw [sizeAt_update_server]
  split <;> rfl

theorem sizeAt_sizes_fold_absent (r : String) :
    ∀ (szs : List (String × String)), r ∉ szs.map Prod.fst →
    ∀ tbl, sizeAt (szs.foldl sizeUpdateStep tbl) r = sizeAt tbl r := by
  intro szs
  induction szs with
  | nil => intro _ tbl; rfl
  | cons x xs ih =>
    intro h tbl
    simp only [List.map_cons, List.mem_cons, not_or] at h
    rw [List.foldl_cons, ih h.2]
    unfold sizeUpdateStep
    rw [sizeAt_update_server, if_neg (fun he => h.1 he.symm)]

theorem sizeAt_sizes_fold (r v : String) :
    ∀ (szs : List (String × String)), (szs.map Prod.fst).Nodup →
    dlookup szs r = some v →
    ∀ tbl, sizeAt (szs.foldl sizeUpdateStep tbl) r = some v := by
  intro szs
  induction szs with
  | nil => intro _ hv; cases hv
  | cons x xs ih =>
    intro hnd hv tbl
    obtain ⟨q, w⟩ := x
    simp only [List.map_cons, List.nodup_cons] at hnd
    by_cases hq : q = r
    · subst hq
      simp [dlookup] at hv
      subst hv
      rw [List.foldl_cons, sizeAt_sizes_fold_absent q xs hnd.1]
      unfold sizeUpdateStep
      rw [sizeAt_update_server, if_pos rfl]
      rfl
    · simp only [dlookup, hq, if_false] at hv
      rw [List.foldl_cons]
      exact ih hnd.2 hv _

theorem dlookup_isSome_of_mem_keys {κ α : Type} [DecidableEq κ]
    {m : List (κ × α)} {k : κ} (h : k ∈ m.map Prod.fst) :
    (dlookup m k).isSome := by
  induction m with
  | nil => simp at h
  | cons p rest ih =>
    obtain ⟨pk, pv⟩ := p
    by_cases hp : pk = k
    · simp [dlookup, hp]
    · simp only [List.map_cons, List.mem_cons] at h
      rcases h with he | hm
      · exact absurd he.symm hp
      · simp [dlookup, hp, ih hm]

/-- C8 amended: role resolution does NOT use only the same provider's
attributes: `server_roles` is a single table accumulated over ALL
providers in processing order, each `update_server` overwriting the
previous binding per attribute.  Hence (first conjunct) after processing
a provider that declares a size for role `r`, the table's size for `r`
is that provider's value — whatever any earlier provider declared — and
(second conjunct) it stays until a later provider re-declares it, so the
last declaring provider wins for every provider's resolution. -/
theorem role_table_cross_provider (ds : CloudDefaults) :
    (∀ (st st' : Phase1State) (pname : String) (prov : ProviderIn)
      (szs : List (String × String)) (r v : String),
      prov.sizes = some szs → (szs.map Prod.fst).Nodup →
      dlookup szs r = some v →
      processProvider ds st (pname, prov) = .ok st' →
      sizeAt st'.serverRoles r = some v)
    ∧ (∀ (r : String) (ps : List (String × ProviderIn))
      (st st' : Phase1State),
      (∀ p ∈ ps, ∀ szs, p.2.sizes = some szs → dlookup szs r = none) →
      ps.foldlM (processProvider ds) st = .ok st' →
      sizeAt st'.serverRoles r = sizeAt st.serverRoles r) := by
  constructor
  · intro st st' pname prov szs r v hszs hnd hv hstep
    unfold processProvider at hstep
    obtain ⟨subnets, hs, h⟩ := exceptBind_ok hstep
    obtain ⟨envs, he, h⟩ := exceptBind_ok h
    obtain ⟨sizes, hsz, h⟩ := exceptBind_ok h
    obtain ⟨images, him, h⟩ := exceptBind_ok h
    obtain ⟨volumes, hvol, h⟩ := exceptBind_ok h
    obtain ⟨secg, hsg, h⟩ := exceptBind_ok h
    have h' := pure_ok h
    subst h'
    have hsz' := ofOption_ok hsz
    rw [hszs] at hsz'
    injection hsz' with hsz'
    subst hsz'
    simp only [sizeAt_fold_preserved sgUpdateStep sizeAt_sgStep,
      sizeAt_fold_preserved volumesUpdateStep sizeAt_volumesStep,
      sizeAt_fold_preserved imageUpdateStep sizeAt_imageStep]
    exact sizeAt_sizes_fold r v szs hnd hv st.serverRoles
  · intro r ps
    induction ps with
    | nil =>
      intro st st' _ h
      rw [List.foldlM_nil] at h
      rw [pure_ok h]
    | cons x xs ih =>
      intro st st' habs h
      rw [List.foldlM_cons] at h
      obtain ⟨st1, h1, h2⟩ := exceptBind_ok h
      have hx : sizeAt st1.serverRoles r = sizeAt st.serverRoles r := by
        unfold processProvider at h1
        obtain ⟨subnets, hs, h⟩ := exceptBind_ok h1
        obtain ⟨envs, he, h⟩ := exceptBind_ok h
        obtain ⟨sizes, hsz, h⟩ := exceptBind_ok h
        obtain ⟨images, him, h⟩ := exceptBind_ok h
        obtain ⟨volumes, hvol, h⟩ := exceptBind_ok h
        obtain ⟨secg, hsg, h⟩ := exceptBind_ok h
        have h' := pure_ok h
        subst h'
        have habs' := habs x (List.mem_cons_self _ _) sizes (ofOption_ok hsz)
        simp only [sizeAt_fold_preserved sgUpdateStep sizeAt_sgStep,
          sizeAt_fold_preserved volumesUpdateStep sizeAt_volumesStep,
          sizeAt_fold_preserved imageUpdateStep sizeAt_imageStep]
        exact sizeAt_sizes_fold_absent r sizes
          (fun hm => by
            have hsome := dlookup_isSome_of_mem_keys hm
            rw [habs'] at hsome
            simp at hsome)
          st.serverRoles
      rw [ih st1 st' (fun p hp => habs p (List.mem_cons_of_mem _ hp)) h2, hx]

/-- Witness for C8's amended theorem at a concrete run. -/
theorem role_table_cross_provider_witness :
    sizeAt [("web", { size := some "s2" })] "web" = some "s2" :=
  (role_table_cross_provider exDefaults).1 {}
    ⟨[("p2", { default_servers := some 5 })], [],
      [("web", { size := some "s2" })], [("p2", {})]⟩
    "p2" exC8P2 [("web", "s2")] "web" "s2" rfl (by simp) rfl rfl

/-! ## C10: the environment table is shared across providers -/

theorem envFold_absent (e : String) :
    ∀ (decls : List (String × List SubnetDecl))
      (acc acc' : List (String × EnvData)),
      e ∉ decls.map Prod.fst →
      decls.foldlM envBuildStep acc = .ok acc' →
      dlookup acc' e = dlookup acc e := by
  intro decls
  induction decls with
  | nil =>
    intro acc acc' _ h
    rw [List.foldlM_nil] at h
    rw [pure_ok h]
  | cons x xs ih =>
    intro acc acc' hmem h
    simp only [List.map_cons, List.mem_cons, not_or] at hmem
    rw [List.foldlM_cons] at h
    obtain ⟨acc1, h1, h2⟩ := exceptBind_ok h
    unfold envBuildStep at h1
    obtain ⟨ed, hed, h1⟩ := exceptBind_ok h1
    have h1' := pure_ok h1
    subst h1'
    rw [ih _ acc' hmem.2 h2, dlookup_dinsert_ne _ _ _ _ hmem.1]

theorem envFold_declared (e : String) (sl : List SubnetDecl) (ed : EnvData) :
    ∀ (decls : List (String × List SubnetDecl))
      (acc acc' : List (String × EnvData)),
      (decls.map Prod.fst).Nodup → dlookup decls e = some sl →
      envOfSubnetList sl = .ok ed →
      decls.foldlM envBuildStep acc = .ok acc' →
      dlookup acc' e = some ed := by
  intro decls
  induction decls with
  | nil =>
    intro acc acc' _ hl
    cases hl
  | cons x xs ih =>
    intro acc acc' hnd hl hed h
    obtain ⟨q, sl'⟩ := x
    simp only [List.map_cons, List.nodup_cons] at hnd
    rw [List.foldlM_cons] at h
    obtain ⟨acc1, h1, h2⟩ := exceptBind_ok h
    unfold envBuildStep at h1
    obtain ⟨ed', hed', h1⟩ := exceptBind_ok h1
    have h1' := pure_ok h1
    subst h1'
    by_cases hq : q = e
    · subst hq
      simp [dlookup] at hl
      subst hl
      rw [hed] at hed'
      injection hed' with hed'
      subst hed'
      rw [envFold_absent q xs _ acc' hnd.1 h2, dlookup_dinsert_self]
    · simp only [dlookup, hq, if_false] at hl
      exact ih _ acc' hnd.2 hl hed h2

theorem processProvider_env_declared (ds : CloudDefaults)
    (st st' : Phase1State) (pname : String) (prov : ProviderIn)
    (decls : List (String × List SubnetDecl)) (e : String)
    (sl : List SubnetDecl) (ed : EnvData)
    (hdecl : prov.subnets = some decls)
    (hnd : (decls.map Prod.fst).Nodup)
    (hl : dlookup decls e = some sl)
    (hed : envOfSubnetList sl = .ok ed)
    (hstep : processProvider ds st (pname, prov) = .ok st') :
    dlookup st'.environments e = some ed := by
  unfold processProvider at hstep
  obtain ⟨subnets, hs, h⟩ := exceptBind_ok hstep
  obtain ⟨envs, he, h⟩ := exceptBind_ok h
  obtain ⟨sizes, hsz, h⟩ := exceptBind_ok h
  obtain ⟨images, him, h⟩ := exceptBind_ok h
  obtain ⟨volumes, hvol, h⟩ := exceptBind_ok h
  obtain ⟨secg, hsg, h⟩ := exceptBind_ok h
  have h' := pure_ok h
  subst h'
  have hs' := ofOption_ok hs
  rw [hdecl] at hs'
  injection hs' with hs'
  subst hs'
  exact envFold_declared e sl ed decls st.environments envs hnd hl hed he

theorem phase1_fold_env_preserved (ds : CloudDefaults) (e : String) :
    ∀ (ps : List (String × ProviderIn)) (st st' : Phase1State),
      (∀ p ∈ ps, ∀ decls, p.2.subnets = some decls →
        e ∉ decls.map Prod.fst) →
      ps.foldlM (processProvider ds) st = .ok st' →
      dlookup st'.environments e = dlookup st.environments e := by
  intro ps
  induction ps with
  | nil =>
    intro st st' _ h
    rw [List.foldlM_nil] at h
    rw [pure_ok h]
  | cons x xs ih =>
    intro st st' habs h
    rw [List.foldlM_cons] at h
    obtain ⟨st1, h1, h2⟩ := exceptBind_ok h
    have hx : dlookup st1.environments e = dlookup st.environments e := by
      unfold processProvider at h1
      obtain ⟨subnets, hs, h⟩ := exceptBind_ok h1
      obtain ⟨envs, he, h⟩ := exceptBind_ok h
      obtain ⟨sizes, hsz, h⟩ := exceptBind_ok h
      obtain ⟨images, him, h⟩ := exceptBind_ok h
      obtain ⟨volumes, hvol, h⟩ := exceptBind_ok h
      obtain ⟨secg, hsg, h⟩ := exceptBind_ok h
      have h' := pure_ok h
      subst h'
      exact envFold_absent e subnets st.environments envs
        (habs x (List.mem_cons_self _ _) subnets (ofOption_ok hs)) he
    rw [ih st1 st' (fun p hp => habs p (List.mem_cons_of_mem _ hp)) h2, hx]

/-- Provider `p1` of the C10 run: declares `test` with subnet `sub-p1`. -/
def exC10P1 : ProviderIn :=
  { subnets := some [("test", [[("A", "sub-p1")]])],
    sizes := some [("web", "s1")], images := some [("web", "ami-1")],
    volumes := some [], security_groups := some [("common", .one "sg-c")] }

/-- Provider `p2` of the C10 run: re-declares environment `test` with a
different subnet id and is processed after `p1`. -/
def exC10P2 : ProviderIn :=
  { subnets := some [("test", [[("A", "sub-p2")]])], sizes := some [],
    images := some [], volumes := some [], security_groups := some [] }

/-- C10: the environment table is keyed by environment name only and is
shared across providers.  First conjunct: after processing a provider
that declares subnets for environment `e`, the table's entry for `e` is
the one derived from THAT provider's declaration, whatever any earlier
provider put there.  Second conjunct: the entry is preserved by further
providers that do not re-declare `e` — so the provider processed last
wins.  Third conjunct (concrete run): `p1`'s own profile in environment
`test` is built with `p2`'s subnet id, because `p2` re-declared `test`
and the whole provider pass runs before any profile is built. -/
theorem environments_shared_last_wins :
    (∀ (ds : CloudDefaults) (st st' : Phase1State) (pname : String)
      (prov : ProviderIn) (decls : List (String × List SubnetDecl))
      (e : String) (sl : List SubnetDecl) (ed : EnvData),
      prov.subnets = some decls → (decls.map Prod.fst).Nodup →
      dlookup decls e = some sl → envOfSubnetList sl = .ok ed →
      processProvider ds st (pname, prov) = .ok st' →
      dlookup st'.environments e = some ed)
    ∧ (∀ (ds : CloudDefaults) (e : String)
      (ps : List (String × ProviderIn)) (st st' : Phase1State),
      (∀ p ∈ ps, ∀ decls, p.2.subnets = some decls →
        e ∉ decls.map Prod.fst) →
      ps.foldlM (processProvider ds) st = .ok st' →
      dlookup st'.environments e = dlookup st.environments e)
    ∧ ((consumeMap [("p1", exC10P1), ("p2", exC10P2)]
        [("p1", [("test", [.bare "web"])])] exDefaults).toOption.bind
      (fun r => (dlookup r.profiles "test").bind
        (fun en => (dlookup en "web_test_p1A").map
          (fun fp => fp.network_interfaces.map NetIface.subnetId)))
      = some ["sub-p2"]) :=
  ⟨processProvider_env_declared,
   phase1_fold_env_preserved,
   rfl⟩

/-- Witness for C10 at a concrete provider step. -/
theorem environments_shared_last_wins_witness :
    dlookup ([("test", ⟨["A"], [("A", "sub-p2")]⟩)] :
      List (String × EnvData)) "test"
      = some ⟨["A"], [("A", "sub-p2")]⟩ :=
  environments_shared_last_wins.1 exDefaults {}
    ⟨[("p2", { default_servers := some 5 })],
      [("test", ⟨["A"], [("A", "sub-p2")]⟩)], [], [("p2", {})]⟩
    "p2" exC10P2 [("test", [[("A", "sub-p2")]])] "test"
    [[("A", "sub-p2")]] ⟨["A"], [("A", "sub-p2")]⟩
    rfl (by simp) rfl rfl rfl

/-! ## C3: hostname distribution balance -/

/-- How many of the loop steps `0..n-1` hit cycle position `r`. -/
def countMod (n k r : Nat) : Nat :=
  ((List.range n).filter (fun j => decide (j % k = r))).length

theorem countMod_succ (n k r : Nat) :
    countMod (n + 1) k r = countMod n k r + if n % k = r then 1 else 0 := by
  by_cases h : n % k = r
  · simp [countMod, List.range_succ, List.filter_append, h]
  · simp [countMod, List.range_succ, List.filter_append, h]

theorem countMod_eq (k r : Nat) (hk : 0 < k) (hr : r < k) :
    ∀ n, countMod n k r = n / k + if r < n % k then 1 else 0 := by
  intro n
  induction n with
  | zero => simp [countMod]
  | succ n ih =>
    rw [countMod_succ, ih]
    have hdm := Nat.div_add_mod n k
    have hmlt : n % k < k := Nat.mod_lt _ hk
    by_cases hc : n % k + 1 = k
    · have hmul : k * (n / k + 1) = k * (n / k) + k := by ring
      have hdvd : n + 1 = k * (n / k + 1) := by omega
      have hdiv : (n + 1) / k = n / k + 1 := by
        rw [hdvd, Nat.mul_div_cancel_left _ hk]
      have hmod : (n + 1) % k = 0 := by
        rw [hdvd, Nat.mul_mod_right]
      rw [hdiv, hmod]
      split_ifs <;> omega
    · have h2 : n % k + 1 < k := by omega
      obtain ⟨hdiv, hmod⟩ := (Nat.div_mod_unique hk).mpr
        (⟨by omega, h2⟩ : n % k + 1 + k * (n / k) = n + 1 ∧ n % k + 1 < k)
      rw [hdiv, hmod]
      split_ifs <;> omega

theorem mapLoop_succ (profiles : List (String × String)) (cl : List String)
    (d : MapDefaults) (f : HostTemplate) (n : Nat) :
    mapLoop profiles cl d f (n + 1)
      = mapInsert (mapLoop profiles cl d f n) (pnameOf profiles cl n)
          ⟨f, n + 1⟩ d := by
  unfold mapLoop
  rw [List.range_succ, List.foldl_append, List.foldl_cons, List.foldl_nil]

/-- Characterisation of the map-loop result: the hostname list bound to
profile name `p` consists of exactly the ordinals of the loop steps
whose cycle position resolved to `p`, in order. -/
theorem mapLoop_lookup (profiles : List (String × String))
    (cl : List String) (d : MapDefaults) (f : HostTemplate) :
    ∀ (n : Nat) (p : String),
      (dlookup (mapLoop profiles cl d f n) p).getD []
        = ((List.range n).filter
            (fun j => decide (pnameOf profiles cl j = p))).map
            (fun j => ((⟨f, j + 1⟩ : Hostname), d)) := by
  intro n
  induction n with
  | zero =>
    intro p
    simp [mapLoop, dlookup]
  | succ n ih =>
    intro p
    rw [mapLoop_succ, List.range_succ, List.filter_append, List.map_append]
    by_cases hp : pnameOf profiles cl n = p
    · subst hp
      have hfresh : (⟨f, n + 1⟩ : Hostname) ∉
          (((List.range n).filter
            (fun j => decide (pnameOf profiles cl j = pnameOf profiles cl n))).map
            (fun j => ((⟨f, j + 1⟩ : Hostname), d))).map Prod.fst := by
        intro hmem
        rw [List.map_map] at hmem
        obtain ⟨j, hj, he⟩ := List.mem_map.mp hmem
        have hjn : j < n := List.mem_range.mp (List.mem_filter.mp hj).1
        have : j + 1 = n + 1 := congrArg Hostname.ordinal he
        omega
      unfold mapInsert
      rw [dlookup_dinsert_self, Option.getD_some, ih,
        dinsert_of_not_mem _ _ _ hfresh]
      simp
    · unfold mapInsert
      rw [dlookup_dinsert_ne _ _ _ _ (fun he => hp he.symm), ih]
      simp [hp]

/-- Total number of map entries (hostnames) across all profiles. -/
def totalHosts (m : List (String × List (Hostname × MapDefaults))) : Nat :=
  (m.map (fun pr => pr.2.length)).sum

/-- Number of hostnames bound to profile name `p`. -/
def profCount (m : List (String × List (Hostname × MapDefaults)))
    (p : String) : Nat :=
  ((dlookup m p).getD []).length

theorem totalHosts_dinsert_none
    (m : List (String × List (Hostname × MapDefaults))) (k : String)
    (v : List (Hostname × MapDefaults)) (h : dlookup m k = none) :
    totalHosts (dinsert m k v) = totalHosts m + v.length := by
  induction m with
  | nil => simp [totalHosts, dinsert]
  | cons p rest ih =>
    obtain ⟨pk, pv⟩ := p
    by_cases hp : pk = k
    · subst hp
      simp [dlookup] at h
    · simp only [dlookup, hp, if_false] at h
      simp only [totalHosts, dinsert, hp, if_false, List.map_cons,
        List.sum_cons] at ih ⊢
      rw [ih h]
      omega

theorem totalHosts_dinsert_some
    (m : List (String × List (Hostname × MapDefaults))) (k : String)
    (v w : List (Hostname × MapDefaults)) (h : dlookup m k = some w) :
    totalHosts (dinsert m k v) + w.length = totalHosts m + v.length := by
  induction m with
  | nil => simp [dlookup] at h
  | cons p rest ih =>
    obtain ⟨pk, pv⟩ := p
    by_cases hp : pk = k
    · subst hp
      simp [dlookup] at h
      subst h
      simp only [totalHosts, dinsert, if_pos rfl, List.map_cons,
        List.sum_cons]
      simp
      omega
    · simp only [dlookup, hp, if_false] at h
      simp only [totalHosts, dinsert, hp, if_false, List.map_cons,
        List.sum_cons] at ih ⊢
      have := ih h
      omega

theorem totalHosts_mapLoop (profiles : List (String × String))
    (cl : List String) (d : MapDefaults) (f : HostTemplate) :
    ∀ n, totalHosts (mapLoop profiles cl d f n) = n := by
  intro n
  induction n with
  | zero => rfl
  | succ n ih =>
    rw [mapLoop_succ]
    unfold mapInsert
    cases hl : dlookup (mapLoop profiles cl d f n) (pnameOf profiles cl n) with
    | none =>
      rw [Option.getD_none, totalHosts_dinsert_none _ _ _ hl]
      simp [dinsert, ih]
    | some w =>
      have hchar := mapLoop_lookup profiles cl d f n (pnameOf profiles cl n)
      rw [hl, Option.getD_some] at hchar
      have hfresh : (⟨f, n + 1⟩ : Hostname) ∉ w.map Prod.fst := by
        rw [hchar, List.map_map]
        intro hmem
        obtain ⟨j, hj, he⟩ := List.mem_map.mp hmem
        have hjn : j < n := List.mem_range.mp (List.mem_filter.mp hj).1
        have : j + 1 = n + 1 := congrArg Hostname.ordinal he
        omega
      rw [Option.getD_some, dinsert_of_not_mem _ _ _ hfresh]
      have ht := totalHosts_dinsert_some (mapLoop profiles cl d f n)
        (pnameOf profiles cl n) (w ++ [(⟨f, n + 1⟩, d)]) w hl
      rw [List.length_append] at ht
      simp only [List.length_singleton] at ht
      omega

theorem getCycleList_ok (seed : HostTemplate) (l : List String)
    (hne : l ≠ []) :
    ∃ cl, getCycleList seed l = .ok cl ∧ cl.Perm l := by
  cases l with
  | nil => cases hne rfl
  | cons x xs =>
    refine ⟨_, rfl, ?_⟩
    exact (List.perm_cons_erase (List.get_mem _ _ _)).symm

/-- C3: `_get_map_data` distributes exactly N hostnames round-robin over
the k availability zones (rotated by the seeded draw): the total number
of emitted map entries is N, each AZ's profile receives either
⌊N/k⌋ or ⌈N/k⌉ of them (the `+1` branch only occurs when k does not
divide N), and any two AZs' shares differ by at most 1.  N is the
`start_servers` value of lines 152-153: the role's `servers` override if
present, else the provider's `default_servers` (see `startServers` and
its use in `processRole`). -/
theorem getMapData_balanced (profiles : List (String × String)) (n : Nat)
    (d : MapDefaults) (f : HostTemplate) (hne : profiles ≠ [])
    (hkeys : (profiles.map Prod.fst).Nodup)
    (hvals : (profiles.map Prod.snd).Nodup) :
    ∃ m, getMapData profiles n d f = .ok m ∧
      totalHosts m = n ∧
      (∀ pr ∈ profiles,
        profCount m pr.2 = n / profiles.length ∨
        (profCount m pr.2 = n / profiles.length + 1 ∧
          n % profiles.length ≠ 0)) ∧
      (∀ a ∈ profiles, ∀ b ∈ profiles,
        profCount m a.2 ≤ profCount m b.2 + 1) := by
  have hkne : profiles.map Prod.fst ≠ [] := by
    cases profiles with
    | nil => cases hne rfl
    | cons x xs => simp
  obtain ⟨cl, hcl, hperm⟩ := getCycleList_ok f (profiles.map Prod.fst) hkne
  have hlen : cl.length = profiles.length := by
    rw [hperm.length_eq, List.length_map]
  have hk : 0 < profiles.length := List.length_pos.mpr hne
  have hclpos : 0 < cl.length := by omega
  have hclnd : cl.Nodup := (hperm.nodup_iff).mpr hkeys
  have hcount : ∀ pr ∈ profiles,
      ∃ r, r < profiles.length ∧
        profCount (mapLoop profiles cl d f n) pr.2
          = n / profiles.length +
            if r < n % profiles.length then 1 else 0 := by
    intro pr hpr
    obtain ⟨az, pname⟩ := pr
    have haz : az ∈ cl := hperm.mem_iff.mpr (List.mem_map_of_mem Prod.fst hpr)
    obtain ⟨⟨r, hrlt⟩, hget⟩ := List.mem_iff_get.mp haz
    refine ⟨r, by omega, ?_⟩
    have hiff : ∀ j, pnameOf profiles cl j = pname ↔
        j % profiles.length = r := by
      intro j
      have hjlt : j % cl.length < cl.length := Nat.mod_lt _ hclpos
      have hgetD : cl.getD (j % cl.length) "" = cl.get ⟨j % cl.length, hjlt⟩ :=
        List.getD_eq_get cl "" hjlt
      constructor
      · intro hj
        have hmemcl : cl.get ⟨j % cl.length, hjlt⟩ ∈ cl := List.get_mem _ _ _
        have hmemk : cl.get ⟨j % cl.length, hjlt⟩ ∈ profiles.map Prod.fst :=
          hperm.mem_iff.mp hmemcl
        have hsome := dlookup_isSome_of_mem_keys hmemk
        obtain ⟨w, hw⟩ := Option.isSome_iff_exists.mp hsome
        have hwp : w = pname := by
          unfold pnameOf at hj
          rw [hgetD, hw] at hj
          exact hj
        subst hwp
        have h1 : (cl.get ⟨j % cl.length, hjlt⟩, w) ∈ profiles :=
          mem_of_dlookup hw
        have h2 : (az, w) ∈ profiles := hpr
        have heq : cl.get ⟨j % cl.length, hjlt⟩ = az :=
          key_eq_of_value_nodup hvals h1 h2
        rw [← hget] at heq
        have hfin := (hclnd.get_inj_iff).mp heq
        have hv := congrArg Fin.val hfin
        simp only [] at hv
        rw [hlen] at hv
        exact hv
      · intro hj
        have hjr : j % cl.length = r := by rw [hlen]; exact hj
        unfold pnameOf
        rw [hgetD]
        have : cl.get ⟨j % cl.length, hjlt⟩ = az := by
          rw [← hget]
          congr 1
          exact Fin.ext hjr
        rw [this, dlookup_of_mem_nodup hkeys hpr]
        rfl
    have hfc : (List.range n).filter
          (fun j => decide (pnameOf profiles cl j = pname))
        = (List.range n).filter
          (fun j => decide (j % profiles.length = r)) :=
      List.filter_congr (fun j _ => decide_eq_decide.mpr (hiff j))
    have hpc : profCount (mapLoop profiles cl d f n) pname
        = countMod n profiles.length r := by
      unfold profCount countMod
      rw [mapLoop_lookup, List.length_map, hfc]
    rw [hpc, countMod_eq profiles.length r hk (by omega) n]
  refine ⟨mapLoop profiles cl d f n, ?_,
    totalHosts_mapLoop profiles cl d f n, ?_, ?_⟩
  · unfold getMapData
    rw [hcl]
    rfl
  · intro pr hpr
    obtain ⟨r, hr, hc⟩ := hcount pr hpr
    by_cases hrm : r < n % profiles.length
    · right
      constructor
      · rw [hc, if_pos hrm]
      · omega
    · left
      rw [hc, if_neg hrm]
      omega
  · intro a ha b hb
    obtain ⟨r1, hr1, h1⟩ := hcount a ha
    obtain ⟨r2, hr2, h2⟩ := hcount b hb
    rw [h1, h2]
    split_ifs <;> omega

/-- Witness for C3 at a concrete run: 5 hosts over 3 AZs. -/
theorem getMapData_balanced_witness :
    ∃ m, getMapData [("A", "pA"), ("B", "pB"), ("C", "pC")] 5 []
        ⟨"web", "test", "p1"⟩ = .ok m ∧
      totalHosts m = 5 ∧
      (∀ pr ∈ ([("A", "pA"), ("B", "pB"), ("C", "pC")] :
          List (String × String)),
        profCount m pr.2
          = 5 / ([("A", "pA"), ("B", "pB"), ("C", "pC")] :
              List (String × String)).length ∨
        (profCount m pr.2
          = 5 / ([("A", "pA"), ("B", "pB"), ("C", "pC")] :
              List (String × String)).length + 1 ∧
          5 % ([("A", "pA"), ("B", "pB"), ("C", "pC")] :
              List (String × String)).length ≠ 0)) ∧
      (∀ a ∈ ([("A", "pA"), ("B", "pB"), ("C", "pC")] :
          List (String × String)),
        ∀ b ∈ ([("A", "pA"), ("B", "pB"), ("C", "pC")] :
          List (String × String)),
        profCount m a.2 ≤ profCount m b.2 + 1) :=
  getMapData_balanced [("A", "pA"), ("B", "pB"), ("C", "pC")] 5 []
    ⟨"web", "test", "p1"⟩ (by decide) (by decide) (by decide)
